import Mathlib

/-!
Shallow embedding of the tx_processor transaction engine.

Amounts (`rust_decimal::Decimal`, an exact fixed-point decimal) are modelled
as rationals `ℚ`; every arithmetic operation the engine performs (addition,
subtraction, negation, order comparison) is exact on `Decimal` and on `ℚ`.
Client ids (`u16`) and transaction ids (`u32`) are modelled as `Nat`: the
engine only ever uses them as map keys.

Mutation in the Rust code is modelled by explicit state passing: each
account operation takes the account value and returns `Except` of the new
account; the state machine `Task::run` is modelled by a function that
threads `History` and the account ledger and returns them alongside the
result, so that "nothing was mutated on failure" is a statement about the
returned state.
-/

/-- The closed error taxonomy of `src/domain/errors.rs` (`TransactionError`). -/
inductive TransactionError where
  | InsufficientFunds
  | TransactionNotFound
  | UnspecifiedBehavior
  | LockedAccount
deriving DecidableEq, Repr

/-- The operation kinds of `src/domain/transaction.rs` (`Operation`). -/
inductive Operation where
  | Deposit
  | Withdrawal
  | Resolve
  | Chargeback
  | Dispute
deriving DecidableEq, Repr

/-- The account entity of `src/domain/account.rs` (`Account`). -/
@[ext]
structure Account where
  client : Nat
  available : ℚ
  held : ℚ
  total : ℚ
  locked : Bool
deriving DecidableEq, Repr

/-- `Account::new`: all balances zero, unlocked. -/
def Account.new (client : Nat) : Account :=
  { client := client, available := 0, held := 0, total := 0, locked := false }

/-- `Account::withdraw`. The Rust source matches on the optional amount with
two guarded `Some` arms (`val > self.available` and `val <= self.available`),
a `None` arm returning success, and a defensive wildcard arm returning
`UnspecifiedBehavior`. On the success arm it mutates `total`, then recomputes
`available` from the new `total`, then `held` from the new `total` and
`available`, in that order. -/
def Account.withdraw (a : Account) (amt : Option ℚ) : Except TransactionError Account :=
  match amt with
  | some val =>
    if val > a.available then
      Except.error TransactionError.InsufficientFunds
    else if val ≤ a.available then
      let total := a.total - val
      let available := total - a.held
      let held := total - available
      Except.ok { a with total := total, available := available, held := held }
    else
      Except.error TransactionError.UnspecifiedBehavior
  | none => Except.ok a

/-- `Account::deposit`: a missing amount defaults to zero
(`amt.unwrap_or_default()`); the op never fails. -/
def Account.deposit (a : Account) (amt : Option ℚ) : Except TransactionError Account :=
  let total := a.total + amt.getD 0
  let available := total - a.held
  let held := total - available
  Except.ok { a with total := total, available := available, held := held }

/-- `Account::resolve`: signed amount, defaulting to zero; the `val < 0`
branch (resolving a deposit dispute) adds `val` to `held` and `total`, the
other branch subtracts `val` from `held` and adds it to `available`. -/
def Account.resolve (a : Account) (amt : Option ℚ) : Except TransactionError Account :=
  let val := amt.getD 0
  if val < 0 then
    Except.ok { a with held := a.held + val, total := a.total + val }
  else
    Except.ok { a with held := a.held - val, available := a.available + val }

/-- `Account::chargeback`: the `val < 0` branch (deposit dispute) adds `val`
to `held` and subtracts it from `available`; the other branch subtracts `val`
from `held` and from `total`. Both branches then set `locked`. -/
def Account.chargeback (a : Account) (amt : Option ℚ) : Except TransactionError Account :=
  let val := amt.getD 0
  if val < 0 then
    Except.ok { a with held := a.held + val, available := a.available - val, locked := true }
  else
    Except.ok { a with held := a.held - val, total := a.total - val, locked := true }

/-- `Account::dispute`: the `val < 0` branch (disputing a deposit) subtracts
`val` from `held` and adds it to `available`; the other branch adds `val` to
`held` and to `total`. -/
def Account.dispute (a : Account) (amt : Option ℚ) : Except TransactionError Account :=
  let val := amt.getD 0
  if val < 0 then
    Except.ok { a with held := a.held - val, available := a.available + val }
  else
    Except.ok { a with held := a.held + val, total := a.total + val }

/-- The input event of `src/domain/transaction.rs` (`Transaction`). -/
structure Transaction where
  op : Operation
  client : Nat
  tx : Nat
  amount : Option ℚ
deriving DecidableEq, Repr

/-- `<&Transaction as TryUpdate<&mut Account>>::try_update`: reject a locked
account before dispatching, then dispatch on the operation kind. -/
def Transaction.try_update (t : Transaction) (a : Account) : Except TransactionError Account :=
  if a.locked then
    Except.error TransactionError.LockedAccount
  else
    match t.op with
    | Operation.Deposit => a.deposit t.amount
    | Operation.Withdrawal => a.withdraw t.amount
    | Operation.Resolve => a.resolve t.amount
    | Operation.Chargeback => a.chargeback t.amount
    | Operation.Dispute => a.dispute t.amount

/-- The history record of `src/domain/tx_history.rs` (`Node`). -/
structure Node where
  op : Operation
  amount : Option ℚ
deriving DecidableEq, Repr

/-- `<Node as From<&Transaction>>::from`. -/
def Node.ofTransaction (t : Transaction) : Node :=
  { op := t.op, amount := t.amount }

/-- `History`: a map from `(client, tx)` keys to the last record inserted for
that key, modelled as a function into `Option Node`. -/
def History := Nat × Nat → Option Node

/-- `History::new`. -/
def History.empty : History := fun _ => none

/-- `History::get`. -/
def History.get (h : History) (k : Nat × Nat) : Option Node := h k

/-- `History::insert` via `Node::from`: always overwrites the key. -/
def History.insert (h : History) (t : Transaction) : History :=
  fun k => if k = (t.client, t.tx) then some (Node.ofTransaction t) else h k

/-- The account ledger (`HashMap<u16, Account>` in `main.rs` / `engine.rs`),
modelled as a function from client ids. -/
def Ledger := Nat → Option Account

/-- An empty ledger. -/
def Ledger.empty : Ledger := fun _ => none

/-- `HashMap::get` / `get_mut` on the ledger. -/
def Ledger.get (l : Ledger) (client : Nat) : Option Account := l client

/-- `HashMap::insert` on the ledger. -/
def Ledger.insert (l : Ledger) (client : Nat) (a : Account) : Ledger :=
  fun c => if c = client then some a else l c

/-- The result of running one `Task` to completion: the outcome together
with the caller's `History` and ledger as they stand afterwards (the Rust
`Task` borrows both mutably; on failure they are returned untouched, which
is what the engine's early returns do). -/
structure RunResult where
  res : Except TransactionError Unit
  history : History
  accounts : Ledger

/-- The `State::Fetching` arm of `Task::next_state`: look up the history
record for `(client, tx)`; if absent fail with `TransactionNotFound`; if
present rewrite the transaction's amount (negating it when the record's op
is `Deposit`, carrying it unchanged for `Withdrawal` and for every other
record kind) and hand the rewritten transaction to `Updating`. -/
def fetchStep (h : History) (t : Transaction) : Except TransactionError Transaction :=
  match h.get (t.client, t.tx) with
  | some node =>
    match node.op with
    | Operation.Deposit =>
      Except.ok { t with amount := node.amount.map (fun el => -1 * el) }
    | Operation.Withdrawal => Except.ok { t with amount := node.amount }
    | _ => Except.ok { t with amount := node.amount }
  | none => Except.error TransactionError.TransactionNotFound

/-- The `State::Updating` arm of `Task::next_state`: fetch the client's
account, or build a fresh `Account::new` if the client is unknown; apply
`try_update`; on success store the updated account back (the Rust code
inserts the new account only after `try_update` succeeded, and `try_update`
on an existing account mutates nothing when it fails). -/
def updateStep (l : Ledger) (t : Transaction) : Except TransactionError Ledger :=
  match l.get t.client with
  | some act =>
    match t.try_update act with
    | Except.ok act' => Except.ok (l.insert t.client act')
    | Except.error e => Except.error e
  | none =>
    match t.try_update (Account.new t.client) with
    | Except.ok act' => Except.ok (l.insert t.client act')
    | Except.error e => Except.error e

/-- The `State::Logging` arm of `Task::next_state`: upsert the history record
for `(client, tx)` from the transaction as it stands now. -/
def logStep (h : History) (t : Transaction) : History := h.insert t

/-- `Task::run`: from `Idle`, Deposit/Withdrawal go through
`Updating → Logging → Done`; the dispute family goes through
`Fetching → Updating → Logging → Done`. An error at any state stops the
machine with the caller's `History` and ledger untouched. -/
def runTask (h : History) (l : Ledger) (t : Transaction) : RunResult :=
  match t.op with
  | Operation.Deposit | Operation.Withdrawal =>
    match updateStep l t with
    | Except.ok l' => { res := Except.ok (), history := logStep h t, accounts := l' }
    | Except.error e => { res := Except.error e, history := h, accounts := l }
  | Operation.Resolve | Operation.Chargeback | Operation.Dispute =>
    match fetchStep h t with
    | Except.ok t' =>
      match updateStep l t' with
      | Except.ok l' => { res := Except.ok (), history := logStep h t', accounts := l' }
      | Except.error e => { res := Except.error e, history := h, accounts := l }
    | Except.error e => { res := Except.error e, history := h, accounts := l }

/-- Projection of `Ledger.insert` through `Ledger.get`. -/
theorem Ledger.get_insert (l : Ledger) (client c : Nat) (a : Account) :
    (l.insert client a).get c = if c = client then some a else l.get c := rfl

/-- Claim C2: each of the five account operations, applied with any optional
amount to an account satisfying `total = available + held`, preserves that
invariant whenever it returns success. -/
theorem c2_invariant_preserved (a a' : Account) (amt : Option ℚ)
    (hinv : a.total = a.available + a.held)
    (hop : a.deposit amt = Except.ok a' ∨ a.withdraw amt = Except.ok a' ∨
           a.dispute amt = Except.ok a' ∨ a.resolve amt = Except.ok a' ∨
           a.chargeback amt = Except.ok a') :
    a'.total = a'.available + a'.held := by
  rcases hop with h | h | h | h | h
  · simp only [Account.deposit, Except.ok.injEq] at h
    subst h
    simp only []
    ring
  · cases amt with
    | none =>
      simp only [Account.withdraw, Except.ok.injEq] at h
      subst h
      exact hinv
    | some val =>
      simp only [Account.withdraw] at h
      split_ifs at h with h1 h2
      simp only [Except.ok.injEq] at h
      subst h
      simp only []
      ring
  · simp only [Account.dispute, Option.getD] at h
    split_ifs at h with hv <;>
    · simp only [Except.ok.injEq] at h
      subst h
      simp only []
      linarith
  · simp only [Account.resolve, Option.getD] at h
    split_ifs at h with hv <;>
    · simp only [Except.ok.injEq] at h
      subst h
      simp only []
      linarith
  · simp only [Account.chargeback, Option.getD] at h
    split_ifs at h with hv <;>
    · simp only [Except.ok.injEq] at h
      subst h
      simp only []
      linarith

/-- Witness for C2 at a concrete input: deposit of 25 into
`{available 100, held 50, total 150}` yields `{125, 50, 175}` and
`175 = 125 + 50`. -/
theorem c2_invariant_preserved_witness :
    ({ client := 1, available := 125, held := 50, total := 175, locked := false } : Account).total =
      ({ client := 1, available := 125, held := 50, total := 175, locked := false } : Account).available +
      ({ client := 1, available := 125, held := 50, total := 175, locked := false } : Account).held :=
  c2_invariant_preserved
    { client := 1, available := 100, held := 50, total := 150, locked := false }
    { client := 1, available := 125, held := 50, total := 175, locked := false }
    (some 25) (by norm_num)
    (Or.inl (by norm_num [Account.deposit]))

/-- Claim C3: `chargeback(v)` is asymmetric. For `v ≥ 0` it subtracts `v`
from `held` and from `total` (leaving `available` untouched); for `v < 0` it
adds `v` to `held` and subtracts `v` from `available` (leaving `total`
untouched); both branches set `locked` and return success. -/
theorem c3_chargeback_asymmetric (a : Account) (v : ℚ) :
    (0 ≤ v → a.chargeback (some v) =
      Except.ok { a with held := a.held - v, total := a.total - v, locked := true }) ∧
    (v < 0 → a.chargeback (some v) =
      Except.ok { a with held := a.held + v, available := a.available - v, locked := true }) := by
  constructor <;> intro hv
  · simp only [Account.chargeback, Option.getD_some]
    rw [if_neg (not_lt.mpr hv)]
  · simp only [Account.chargeback, Option.getD_some]
    rw [if_pos hv]

/-- Witness for C3 at concrete inputs: chargeback of `+50` (withdrawal
dispute) on `{100, 50, 150}` removes 50 from held and total; chargeback of
`-50` (deposit dispute) on `{150, 50, 200}` leaves total at 200. -/
theorem c3_chargeback_asymmetric_witness :
    Account.chargeback { client := 1, available := 100, held := 50, total := 150, locked := false }
        (some 50) =
      Except.ok { client := 1, available := 100, held := 50 - 50, total := 150 - 50, locked := true } ∧
    Account.chargeback { client := 1, available := 150, held := 50, total := 200, locked := false }
        (some (-50)) =
      Except.ok { client := 1, available := 150 - (-50), held := 50 + (-50), total := 200, locked := true } :=
  ⟨(c3_chargeback_asymmetric
      { client := 1, available := 100, held := 50, total := 150, locked := false } 50).1
      (by norm_num),
   (c3_chargeback_asymmetric
      { client := 1, available := 150, held := 50, total := 200, locked := false } (-50)).2
      (by norm_num)⟩

/-- Claim C6: `withdraw (some a)` fails with `InsufficientFunds` exactly when
`a` exceeds `available`; when `a ≤ available` it succeeds with `total`
decreased by `a`, `available` recomputed as the new `total - held`, and
`held` unchanged; `withdraw none` succeeds leaving the account untouched. -/
theorem c6_withdraw_spec (a : Account) (amt : ℚ) :
    (a.withdraw (some amt) = Except.error TransactionError.InsufficientFunds ↔
      a.available < amt) ∧
    (amt ≤ a.available → a.withdraw (some amt) =
      Except.ok { a with total := a.total - amt, available := a.total - amt - a.held }) ∧
    a.withdraw none = Except.ok a := by
  refine ⟨?_, ?_, rfl⟩
  · by_cases h : a.available < amt
    · simp only [Account.withdraw, gt_iff_lt]
      rw [if_pos h]
      simp [h]
    · simp only [Account.withdraw, gt_iff_lt]
      rw [if_neg h, if_pos (not_lt.mp h)]
      simp [h]
  · intro hle
    simp only [Account.withdraw, gt_iff_lt]
    rw [if_neg (not_lt.mpr hle), if_pos hle]
    simp only [Except.ok.injEq]
    ext <;> simp

/-- Witness for C6 at a concrete input: withdrawing 20 from
`{available 40, held 0, total 40}` succeeds with total 20. -/
theorem c6_withdraw_spec_witness :
    Account.withdraw { client := 1, available := 40, held := 0, total := 40, locked := false }
        (some 20) =
      Except.ok { client := 1, available := 40 - 20 - 0, held := 0, total := 40 - 20, locked := false } :=
  (c6_withdraw_spec { client := 1, available := 40, held := 0, total := 40, locked := false } 20).2.1
    (by norm_num)

/-- Claim C9: the `UnspecifiedBehavior` arm of `withdraw` is unreachable:
for every account and every optional amount, `withdraw` never returns it,
because a present amount is either greater than `available` or at most
`available` under the total order. -/
theorem c9_no_unspecified (a : Account) (amt : Option ℚ) :
    a.withdraw amt ≠ Except.error TransactionError.UnspecifiedBehavior := by
  cases amt with
  | none => simp [Account.withdraw]
  | some val =>
    simp only [Account.withdraw, gt_iff_lt]
    split_ifs with h1 h2
    · simp
    · simp
    · exact absurd (not_lt.mp h1) h2

/-- Witness for C9 at a concrete input. -/
theorem c9_no_unspecified_witness :
    Account.withdraw (Account.new 1) (some 5) ≠
      Except.error TransactionError.UnspecifiedBehavior :=
  c9_no_unspecified (Account.new 1) (some 5)

/-- Counterexample to claim C1 at a concrete input: the account
`{available 200, held 0, total 200}` satisfies `total = available + held`;
applying `dispute (-50)` yields `{150, 50, 200}` and then `resolve (-50)`
yields `{150, 0, 150}`, which differs from the pre-dispute account — so
dispute followed by resolve with the same signed amount does not restore
the pre-dispute balances. -/
theorem c1_counterexample :
    ({ client := 1, available := 200, held := 0, total := 200, locked := false } : Account).total =
      ({ client := 1, available := 200, held := 0, total := 200, locked := false } : Account).available +
      ({ client := 1, available := 200, held := 0, total := 200, locked := false } : Account).held ∧
    Account.dispute { client := 1, available := 200, held := 0, total := 200, locked := false }
        (some (-50)) =
      Except.ok { client := 1, available := 150, held := 50, total := 200, locked := false } ∧
    Account.resolve { client := 1, available := 150, held := 50, total := 200, locked := false }
        (some (-50)) =
      Except.ok { client := 1, available := 150, held := 0, total := 150, locked := false } ∧
    ({ client := 1, available := 150, held := 0, total := 150, locked := false } : Account) ≠
      { client := 1, available := 200, held := 0, total := 200, locked := false } := by
  refine ⟨by norm_num, ?_, ?_, ?_⟩
  · norm_num [Account.dispute]
  · norm_num [Account.resolve]
  · norm_num [Account.ext_iff]

/-- Claim C1 as amended: applying `dispute(v)` and then `resolve(v)` restores
`held`, `locked` and `client` exactly, but moves both `available` and `total`
by exactly `+v` — i.e. the pair reverses the originally disputed transaction
rather than restoring the pre-dispute balances, which are recovered only when
`v = 0`. This holds for both `v < 0` and `v ≥ 0`. -/
theorem c1_dispute_resolve_net (a a1 a2 : Account) (v : ℚ)
    (h1 : a.dispute (some v) = Except.ok a1)
    (h2 : a1.resolve (some v) = Except.ok a2) :
    a2.held = a.held ∧ a2.available = a.available + v ∧ a2.total = a.total + v ∧
    a2.locked = a.locked ∧ a2.client = a.client := by
  simp only [Account.dispute, Option.getD_some] at h1
  simp only [Account.resolve, Option.getD_some] at h2
  split_ifs at h1 h2 with hv
  · simp only [Except.ok.injEq] at h1 h2
    subst h1
    subst h2
    refine ⟨by simp, by simp, by simp, rfl, rfl⟩
  · simp only [Except.ok.injEq] at h1 h2
    subst h1
    subst h2
    refine ⟨by simp, by simp, by simp, rfl, rfl⟩

/-- Witness for the amended C1 at a concrete input: from `{200, 0, 200}` with
`v = -50`, dispute then resolve ends at `{150, 0, 150}`: held restored,
available and total each moved by `-50`. -/
theorem c1_dispute_resolve_net_witness :
    ({ client := 1, available := 150, held := 0, total := 150, locked := false } : Account).held =
      ({ client := 1, available := 200, held := 0, total := 200, locked := false } : Account).held ∧
    ({ client := 1, available := 150, held := 0, total := 150, locked := false } : Account).available =
      ({ client := 1, available := 200, held := 0, total := 200, locked := false } : Account).available + (-50) ∧
    ({ client := 1, available := 150, held := 0, total := 150, locked := false } : Account).total =
      ({ client := 1, available := 200, held := 0, total := 200, locked := false } : Account).total + (-50) ∧
    ({ client := 1, available := 150, held := 0, total := 150, locked := false } : Account).locked =
      ({ client := 1, available := 200, held := 0, total := 200, locked := false } : Account).locked ∧
    ({ client := 1, available := 150, held := 0, total := 150, locked := false } : Account).client =
      ({ client := 1, available := 200, held := 0, total := 200, locked := false } : Account).client :=
  c1_dispute_resolve_net
    { client := 1, available := 200, held := 0, total := 200, locked := false }
    { client := 1, available := 150, held := 50, total := 200, locked := false }
    { client := 1, available := 150, held := 0, total := 150, locked := false }
    (-50)
    (by norm_num [Account.dispute])
    (by norm_num [Account.resolve])

/-- A successful `Fetching` step only rewrites the transaction's amount: the
operation kind, client id and transaction id pass through unchanged. -/
theorem fetchStep_ok_fields (h : History) (t t' : Transaction)
    (hf : fetchStep h t = Except.ok t') :
    t'.op = t.op ∧ t'.client = t.client ∧ t'.tx = t.tx := by
  simp only [fetchStep] at hf
  cases hg : h.get (t.client, t.tx) with
  | none =>
    rw [hg] at hf
    simp at hf
  | some node =>
    rw [hg] at hf
    obtain ⟨nop, namount⟩ := node
    cases nop <;>
    · simp only [Except.ok.injEq] at hf
      subst hf
      simp

/-- Claim C7: a dispute-family transaction whose `(client, tx)` key is absent
from `History` makes the run fail with `TransactionNotFound`, and the
returned `History` and ledger are exactly the ones passed in. -/
theorem c7_not_found (h : History) (l : Ledger) (t : Transaction)
    (hop : t.op = Operation.Dispute ∨ t.op = Operation.Resolve ∨ t.op = Operation.Chargeback)
    (habs : h.get (t.client, t.tx) = none) :
    runTask h l t =
      { res := Except.error TransactionError.TransactionNotFound, history := h, accounts := l } := by
  obtain ⟨op, client, tx, amount⟩ := t
  dsimp only at hop habs
  rcases hop with hop | hop | hop <;> subst hop <;>
    simp [runTask, fetchStep, habs]

/-- Witness for C7 at a concrete input: a Dispute for key `(1, 1)` against an
empty history fails with `TransactionNotFound` and leaves both stores
untouched. -/
theorem c7_not_found_witness :
    runTask History.empty Ledger.empty
        { op := Operation.Dispute, client := 1, tx := 1, amount := none } =
      { res := Except.error TransactionError.TransactionNotFound,
        history := History.empty, accounts := Ledger.empty } :=
  c7_not_found History.empty Ledger.empty
    { op := Operation.Dispute, client := 1, tx := 1, amount := none }
    (Or.inl rfl) rfl

/-- Claim C8: when the `Fetching` state finds a record for `(client, tx)`,
the amount carried forward is the record's amount negated if the record's
operation is `Deposit`, and the record's amount unchanged if it is
`Withdrawal` or itself a `Dispute`. -/
theorem c8_fetch_sign (h : History) (t : Transaction) (node : Node)
    (hget : h.get (t.client, t.tx) = some node) :
    (node.op = Operation.Deposit →
      fetchStep h t = Except.ok { t with amount := node.amount.map (fun x => -x) }) ∧
    (node.op = Operation.Withdrawal →
      fetchStep h t = Except.ok { t with amount := node.amount }) ∧
    (node.op = Operation.Dispute →
      fetchStep h t = Except.ok { t with amount := node.amount }) := by
  have hneg : (fun el : ℚ => -1 * el) = fun x : ℚ => -x := by
    funext x
    ring
  refine ⟨?_, ?_, ?_⟩ <;> intro hop <;> simp [fetchStep, hget, hop, hneg]

/-- Witness for C8 at a concrete input: a record `(Deposit, 50)` for key
`(1, 1)` makes the fetch of a Dispute for that key carry `-50`. -/
theorem c8_fetch_sign_witness :
    fetchStep
        (History.empty.insert { op := Operation.Deposit, client := 1, tx := 1, amount := some 50 })
        { op := Operation.Dispute, client := 1, tx := 1, amount := none } =
      Except.ok { op := Operation.Dispute, client := 1, tx := 1, amount := some (-50) } := by
  have happ :=
    (c8_fetch_sign
      (History.empty.insert { op := Operation.Deposit, client := 1, tx := 1, amount := some 50 })
      { op := Operation.Dispute, client := 1, tx := 1, amount := none }
      { op := Operation.Deposit, amount := some 50 } rfl).1 rfl
  simpa using happ

/-- Claim C10: when the record found for `(client, tx)` is a `Resolve` or
`Chargeback` record, the wildcard match arm of `Fetching` carries its stored
amount forward unchanged; and a missing amount is treated as zero by
`dispute`, so such a transaction id can be disputed again with the amount the
record carries. -/
theorem c10_wildcard_carry (h : History) (t : Transaction) (node : Node)
    (hget : h.get (t.client, t.tx) = some node)
    (hop : node.op = Operation.Resolve ∨ node.op = Operation.Chargeback) :
    fetchStep h t = Except.ok { t with amount := node.amount } ∧
    (∀ a : Account, a.dispute none = a.dispute (some 0)) := by
  constructor
  · rcases hop with hop | hop <;> simp [fetchStep, hget, hop]
  · intro a
    rfl

/-- Witness for C10 at a concrete input: a record `(Resolve, 50)` for key
`(1, 1)` makes the fetch of a second Dispute for that key carry `50`
unchanged. -/
theorem c10_wildcard_carry_witness :
    fetchStep
        (History.empty.insert { op := Operation.Resolve, client := 1, tx := 1, amount := some 50 })
        { op := Operation.Dispute, client := 1, tx := 1, amount := none } =
      Except.ok { op := Operation.Dispute, client := 1, tx := 1, amount := some 50 } ∧
    Account.dispute (Account.new 1) none = Account.dispute (Account.new 1) (some 0) := by
  have happ :=
    c10_wildcard_carry
      (History.empty.insert { op := Operation.Resolve, client := 1, tx := 1, amount := some 50 })
      { op := Operation.Dispute, client := 1, tx := 1, amount := none }
      { op := Operation.Resolve, amount := some 50 } rfl (Or.inl rfl)
  exact ⟨happ.1, happ.2 (Account.new 1)⟩

/-- Running any transaction against a ledger whose account for the
transaction's client is locked leaves both the history and the ledger
exactly as they were. -/
theorem runTask_locked_unchanged (H : History) (L : Ledger) (t : Transaction) (a : Account)
    (hget : L.get t.client = some a) (hlocked : a.locked = true) :
    (runTask H L t).history = H ∧ (runTask H L t).accounts = L := by
  obtain ⟨op, client, tx, amount⟩ := t
  dsimp only at hget
  have hupd : ∀ s : Transaction, s.client = client →
      updateStep L s = Except.error TransactionError.LockedAccount := by
    intro s hc
    simp [updateStep, hc, hget, Transaction.try_update, hlocked]
  cases op
  case Deposit =>
    constructor <;>
      simp [runTask,
        hupd { op := Operation.Deposit, client := client, tx := tx, amount := amount } rfl]
  case Withdrawal =>
    constructor <;>
      simp [runTask,
        hupd { op := Operation.Withdrawal, client := client, tx := tx, amount := amount } rfl]
  all_goals
    refine ⟨?_, ?_⟩ <;>
    · simp only [runTask]
      split
      · rename_i t' hf
        obtain ⟨-, hclient, -⟩ := fetchStep_ok_fields _ _ _ hf
        dsimp only at hclient
        rw [hupd t' hclient]
      · rfl

/-- Claim C5: a transaction applied to a locked account is rejected by
`try_update` with `LockedAccount` before any arithmetic; running any
transaction whose client's ledger account is locked leaves the ledger and
the history untouched; and none of the five account operations ever resets
`locked` to `false` on success. -/
theorem c5_locked_account (t : Transaction) (a : Account) (hlocked : a.locked = true) :
    Transaction.try_update t a = Except.error TransactionError.LockedAccount ∧
    (∀ (h : History) (l : Ledger), l.get t.client = some a →
      (runTask h l t).history = h ∧ (runTask h l t).accounts = l) ∧
    (∀ (amt : Option ℚ) (a' : Account),
      (a.deposit amt = Except.ok a' ∨ a.withdraw amt = Except.ok a' ∨
       a.dispute amt = Except.ok a' ∨ a.resolve amt = Except.ok a' ∨
       a.chargeback amt = Except.ok a') → a'.locked = true) := by
  refine ⟨by simp [Transaction.try_update, hlocked], ?_, ?_⟩
  · intro H L hget
    exact runTask_locked_unchanged H L t a hget hlocked
  · intro amt a' hok
    rcases hok with h | h | h | h | h
    · simp only [Account.deposit, Except.ok.injEq] at h
      subst h
      exact hlocked
    · cases amt with
      | none =>
        simp only [Account.withdraw, Except.ok.injEq] at h
        subst h
        exact hlocked
      | some val =>
        simp only [Account.withdraw] at h
        split_ifs at h with h1 h2
        simp only [Except.ok.injEq] at h
        subst h
        exact hlocked
    · simp only [Account.dispute, Option.getD] at h
      split_ifs at h with hv <;>
      · simp only [Except.ok.injEq] at h
        subst h
        exact hlocked
    · simp only [Account.resolve, Option.getD] at h
      split_ifs at h with hv <;>
      · simp only [Except.ok.injEq] at h
        subst h
        exact hlocked
    · simp only [Account.chargeback, Option.getD] at h
      split_ifs at h with hv <;>
      · simp only [Except.ok.injEq] at h
        subst h
        rfl

/-- Witness for C5 at a concrete input: a deposit addressed to a locked
account `{150, 0, 150, locked}` is rejected with `LockedAccount`, and the
run leaves the history and ledger unchanged. -/
theorem c5_locked_account_witness :
    Transaction.try_update
        { op := Operation.Deposit, client := 1, tx := 1, amount := some 100 }
        { client := 1, available := 150, held := 0, total := 150, locked := true } =
      Except.error TransactionError.LockedAccount ∧
    (runTask History.empty
        (Ledger.empty.insert 1 { client := 1, available := 150, held := 0, total := 150, locked := true })
        { op := Operation.Deposit, client := 1, tx := 1, amount := some 100 }).history =
      History.empty ∧
    (runTask History.empty
        (Ledger.empty.insert 1 { client := 1, available := 150, held := 0, total := 150, locked := true })
        { op := Operation.Deposit, client := 1, tx := 1, amount := some 100 }).accounts =
      Ledger.empty.insert 1 { client := 1, available := 150, held := 0, total := 150, locked := true } := by
  have hmain :=
    c5_locked_account
      { op := Operation.Deposit, client := 1, tx := 1, amount := some 100 }
      { client := 1, available := 150, held := 0, total := 150, locked := true } rfl
  have hrun :=
    hmain.2.1 History.empty
      (Ledger.empty.insert 1 { client := 1, available := 150, held := 0, total := 150, locked := true })
      rfl
  exact ⟨hmain.1, hrun.1, hrun.2⟩

/-- A successful `Updating` step for a client absent from the ledger applied
the transaction to a fresh `Account::new` and stored the result under the
client's id. -/
theorem updateStep_absent (l : Ledger) (s : Transaction)
    (habs : l.get s.client = none) (l' : Ledger)
    (h : updateStep l s = Except.ok l') :
    ∃ a', Transaction.try_update s (Account.new s.client) = Except.ok a' ∧
      l' = l.insert s.client a' := by
  simp only [updateStep, habs] at h
  cases ht : Transaction.try_update s (Account.new s.client) with
  | ok a' =>
    rw [ht] at h
    simp only [Except.ok.injEq] at h
    exact ⟨a', rfl, h.symm⟩
  | error e =>
    rw [ht] at h
    simp at h

/-- A successful run commits exactly one `Updating` step, performed with a
transaction that differs from the input at most in its amount. -/
theorem runTask_ok_shape (h : History) (l : Ledger) (t : Transaction)
    (hok : (runTask h l t).res = Except.ok ()) :
    ∃ t' l', t'.op = t.op ∧ t'.client = t.client ∧ t'.tx = t.tx ∧
      updateStep l t' = Except.ok l' ∧
      (runTask h l t).accounts = l' := by
  obtain ⟨op, client, tx, amount⟩ := t
  cases op
  case Deposit =>
    cases hu : updateStep l { op := Operation.Deposit, client := client, tx := tx, amount := amount } with
    | ok l' =>
      exact ⟨{ op := Operation.Deposit, client := client, tx := tx, amount := amount }, l',
        rfl, rfl, rfl, hu, by simp [runTask, hu]⟩
    | error e =>
      exfalso
      simp [runTask, hu] at hok
  case Withdrawal =>
    cases hu : updateStep l { op := Operation.Withdrawal, client := client, tx := tx, amount := amount } with
    | ok l' =>
      exact ⟨{ op := Operation.Withdrawal, client := client, tx := tx, amount := amount }, l',
        rfl, rfl, rfl, hu, by simp [runTask, hu]⟩
    | error e =>
      exfalso
      simp [runTask, hu] at hok
  case Resolve =>
    cases hf : fetchStep h { op := Operation.Resolve, client := client, tx := tx, amount := amount } with
    | error e =>
      exfalso
      simp [runTask, hf] at hok
    | ok t' =>
      obtain ⟨hop, hclient, htx⟩ := fetchStep_ok_fields _ _ _ hf
      cases hu : updateStep l t' with
      | error e =>
        exfalso
        simp [runTask, hf, hu] at hok
      | ok l' =>
        exact ⟨t', l', hop, hclient, htx, hu, by simp [runTask, hf, hu]⟩
  case Chargeback =>
    cases hf : fetchStep h { op := Operation.Chargeback, client := client, tx := tx, amount := amount } with
    | error e =>
      exfalso
      simp [runTask, hf] at hok
    | ok t' =>
      obtain ⟨hop, hclient, htx⟩ := fetchStep_ok_fields _ _ _ hf
      cases hu : updateStep l t' with
      | error e =>
        exfalso
        simp [runTask, hf, hu] at hok
      | ok l' =>
        exact ⟨t', l', hop, hclient, htx, hu, by simp [runTask, hf, hu]⟩
  case Dispute =>
    cases hf : fetchStep h { op := Operation.Dispute, client := client, tx := tx, amount := amount } with
    | error e =>
      exfalso
      simp [runTask, hf] at hok
    | ok t' =>
      obtain ⟨hop, hclient, htx⟩ := fetchStep_ok_fields _ _ _ hf
      cases hu : updateStep l t' with
      | error e =>
        exfalso
        simp [runTask, hf, hu] at hok
      | ok l' =>
        exact ⟨t', l', hop, hclient, htx, hu, by simp [runTask, hf, hu]⟩

/-- Counterexample to claim C4 at a concrete input: a withdrawal of 50 for
the unknown client 1 is processed against an empty ledger; the run fails
with `InsufficientFunds` and no account for client 1 exists afterwards
(the engine inserts the freshly created account only after `try_update`
succeeds), so a processed transaction referencing an unknown client does
not always leave an account in the ledger. -/
theorem c4_counterexample :
    Ledger.empty.get 1 = none ∧
    (runTask History.empty Ledger.empty
      { op := Operation.Withdrawal, client := 1, tx := 1, amount := some 50 }).res =
      Except.error TransactionError.InsufficientFunds ∧
    (runTask History.empty Ledger.empty
      { op := Operation.Withdrawal, client := 1, tx := 1, amount := some 50 }).accounts.get 1 =
      none := by
  refine ⟨rfl, ?_, ?_⟩ <;> rfl

/-- Claim C4 as amended: for every transaction referencing a client id
absent from the ledger whose run returns success, an account was created by
`Account::new` with zero balances and `locked = false`, the transaction
(with at most its amount rewritten by `Fetching`) was applied to it, the
result is present in the ledger afterwards, and no previously present
account was deleted. -/
theorem c4_account_created_on_success (h : History) (l : Ledger) (t : Transaction)
    (habs : l.get t.client = none) (hok : (runTask h l t).res = Except.ok ()) :
    Account.new t.client =
      { client := t.client, available := 0, held := 0, total := 0, locked := false } ∧
    (∃ t' a', t'.op = t.op ∧ t'.client = t.client ∧ t'.tx = t.tx ∧
      Transaction.try_update t' (Account.new t.client) = Except.ok a' ∧
      (runTask h l t).accounts.get t.client = some a') ∧
    (∀ c a0, l.get c = some a0 → ∃ a1, (runTask h l t).accounts.get c = some a1) := by
  obtain ⟨t', l', hop, hclient, htx, hu, hacc⟩ := runTask_ok_shape h l t hok
  have habs' : l.get t'.client = none := by
    rw [hclient]
    exact habs
  obtain ⟨a', hta, hl'⟩ := updateStep_absent l t' habs' l' hu
  refine ⟨rfl, ⟨t', a', hop, hclient, htx, ?_, ?_⟩, ?_⟩
  · rw [← hclient]
    exact hta
  · rw [hacc, hl', Ledger.get_insert, if_pos hclient.symm]
  · intro c a0 hc
    rw [hacc, hl', Ledger.get_insert]
    by_cases hcc : c = t'.client
    · exact ⟨a', by rw [if_pos hcc]⟩
    · exact ⟨a0, by rw [if_neg hcc]; exact hc⟩

/-- Witness for the amended C4 at a concrete input: a deposit of 42 for the
unknown client 1 creates the zero account and leaves the updated account in
the ledger. -/
theorem c4_account_created_on_success_witness :
    Account.new 1 =
      { client := 1, available := 0, held := 0, total := 0, locked := false } ∧
    (∃ t' a', t'.op = Operation.Deposit ∧ t'.client = 1 ∧ t'.tx = 7 ∧
      Transaction.try_update t' (Account.new 1) = Except.ok a' ∧
      (runTask History.empty Ledger.empty
        { op := Operation.Deposit, client := 1, tx := 7, amount := some 42 }).accounts.get 1 =
        some a') :=
  ⟨(c4_account_created_on_success History.empty Ledger.empty
      { op := Operation.Deposit, client := 1, tx := 7, amount := some 42 } rfl rfl).1,
   (c4_account_created_on_success History.empty Ledger.empty
      { op := Operation.Deposit, client := 1, tx := 7, amount := some 42 } rfl rfl).2.1⟩
